import Mathlib

set_option maxHeartbeats 1000000
set_option maxRecDepth 20000

/-!
Shallow embedding of the UDS tunnel relay protocol engine
(src/tunnel-server/src/uds_tunnel/tunnel.py, class TunnelProtocol).

Bytes are modelled as natural numbers below 256 (`List Nat` for byte
strings); Python `str` values are modelled as lists of Unicode code
points (`List Nat`) where their content matters, or as Lean `String`
where only equality matters.  The asynchronous callbacks of the
protocol class are modelled as pure state-transition functions that
additionally return the list of observable effects (log lines, writes
to the client transport, upstream HTTP requests, backend connection
attempts) they perform, in order.
-/

namespace UdsTunnel

/-! ## Protocol constants

The `consts` module of the tunnel server is not under src/; its values
are fixed by the specification. -/

/-- Modelled from the spec: `consts.COMMAND_LENGTH` (missing module
`uds_tunnel.consts`).  Spec 4.1: commands are 4 ASCII bytes. -/
def COMMAND_LENGTH : Nat := 4

/-- Modelled from the spec: `consts.TICKET_LENGTH` (missing module
`uds_tunnel.consts`).  Spec 3: a ticket is a 48-byte string. -/
def TICKET_LENGTH : Nat := 48

/-- Modelled from the spec: `consts.PASSWORD_LENGTH` (missing module
`uds_tunnel.consts`).  Spec 4.1: STAT/INFO carry a 40-byte password. -/
def PASSWORD_LENGTH : Nat := 40

/-- Modelled from the spec: `consts.COMMAND_OPEN`, the ASCII bytes of
the string OPEN (spec 4.1 wire-framing table). -/
def COMMAND_OPEN : List Nat := [79, 80, 69, 78]

/-- Modelled from the spec: `consts.COMMAND_TEST`, ASCII TEST. -/
def COMMAND_TEST : List Nat := [84, 69, 83, 84]

/-- Modelled from the spec: `consts.COMMAND_STAT`, ASCII STAT. -/
def COMMAND_STAT : List Nat := [83, 84, 65, 84]

/-- Modelled from the spec: `consts.COMMAND_INFO`, ASCII INFO. -/
def COMMAND_INFO : List Nat := [73, 78, 70, 79]

/-- The literal byte string b'OK' written at tunnel.py lines 143 and 198. -/
def bOK : List Nat := [79, 75]

/-- The literal byte string b'ERROR_TICKET' (tunnel.py line 118). -/
def bERROR_TICKET : List Nat := [69, 82, 82, 79, 82, 95, 84, 73, 67, 75, 69, 84]

/-- The literal byte string b'ERROR_COMMAND' (tunnel.py line 209). -/
def bERROR_COMMAND : List Nat := [69, 82, 82, 79, 82, 95, 67, 79, 77, 77, 65, 78, 68]

/-- The literal byte string b'FORBIDDEN' (tunnel.py lines 163 and 174). -/
def bFORBIDDEN : List Nat := [70, 79, 82, 66, 73, 68, 68, 69, 78]

/-! ## UTF-8 decoding

tunnel.py decodes the ticket twice: `getTicketFromUDS` checks the
characters of `ticket.decode(errors='ignore')` (line 314) and
`_readFromUDS` calls `ticket.decode()` strictly while building the
request URL (line 286).  Both decoders are modelled below, down to the
byte-level validity rules of CPython's UTF-8 codec (RFC 3629: no
overlong forms, no surrogates, no code points above 0x10FFFF). -/

/-- A byte in the UTF-8 continuation range 0x80..0xBF. -/
def isCont (b : Nat) : Bool := 128 ≤ b && b < 192

/-- Allowed second byte after a three-byte lead: lead 0xE0 needs
0xA0..0xBF (no overlong forms), lead 0xED needs 0x80..0x9F (no
surrogates), other leads take any continuation byte. -/
def cont3ok (b c1 : Nat) : Bool :=
  if b = 224 then 160 ≤ c1 && c1 < 192
  else if b = 237 then 128 ≤ c1 && c1 < 160
  else isCont c1

/-- Allowed second byte after a four-byte lead: lead 0xF0 needs
0x90..0xBF (no overlong forms), lead 0xF4 needs 0x80..0x8F (maximum
code point 0x10FFFF), other leads take any continuation byte. -/
def cont4ok (b c1 : Nat) : Bool :=
  if b = 240 then 144 ≤ c1 && c1 < 192
  else if b = 244 then 128 ≤ c1 && c1 < 144
  else isCont c1

/-- Result of decoding one UTF-8 scalar from the front of a byte
list: end of input, an invalid prefix, or one code point plus the
remaining bytes. -/
inductive Utf8Step where
  | done
  | fail
  | emit (c : Nat) (rest : List Nat)
deriving Repr, DecidableEq

/-- Continuation of a two-byte sequence with lead byte `b`. -/
def utf8Step2 (b : Nat) : List Nat → Utf8Step
  | c1 :: rest2 =>
    if isCont c1 then Utf8Step.emit ((b - 192) * 64 + (c1 - 128)) rest2
    else Utf8Step.fail
  | [] => Utf8Step.fail

/-- Continuation of a three-byte sequence with lead byte `b`. -/
def utf8Step3 (b : Nat) : List Nat → Utf8Step
  | c1 :: c2 :: rest3 =>
    if cont3ok b c1 && isCont c2 then
      Utf8Step.emit ((b - 224) * 4096 + (c1 - 128) * 64 + (c2 - 128)) rest3
    else Utf8Step.fail
  | _ => Utf8Step.fail

/-- Continuation of a four-byte sequence with lead byte `b`. -/
def utf8Step4 (b : Nat) : List Nat → Utf8Step
  | c1 :: c2 :: c3 :: rest4 =>
    if cont4ok b c1 && isCont c2 && isCont c3 then
      Utf8Step.emit
        ((b - 240) * 262144 + (c1 - 128) * 4096 + (c2 - 128) * 64 + (c3 - 128)) rest4
    else Utf8Step.fail
  | _ => Utf8Step.fail

/-- Decode one UTF-8 scalar value from the front of a byte list. -/
def utf8Step : List Nat → Utf8Step
  | [] => Utf8Step.done
  | b :: rest =>
    if b < 128 then Utf8Step.emit b rest
    else if b < 194 then Utf8Step.fail
    else if b < 224 then utf8Step2 b rest
    else if b < 240 then utf8Step3 b rest
    else if b < 245 then utf8Step4 b rest
    else Utf8Step.fail

/-- `bytes.decode()` (strict), fuel-indexed so that the recursion is
structural; `utf8Decode` supplies fuel equal to the list length, which
always suffices because each step consumes at least one byte. -/
def utf8DecodeF : Nat → List Nat → Option (List Nat)
  | _, [] => some []
  | 0, _ :: _ => none
  | fuel + 1, b :: rest =>
    match utf8Step (b :: rest) with
    | Utf8Step.done => none
    | Utf8Step.fail => none
    | Utf8Step.emit c rest2 => (utf8DecodeF fuel rest2).map (fun cs => c :: cs)

/-- Python `bytes.decode()` with strict error handling, as a partial
function: `none` models a raised UnicodeDecodeError. -/
def utf8Decode (l : List Nat) : Option (List Nat) := utf8DecodeF l.length l

/-- `bytes.decode(errors='ignore')`, fuel-indexed: undecodable bytes
are silently dropped one at a time (for UTF-8 this produces the same
string as CPython's handler, which skips maximal invalid subparts,
because every byte of an invalid subpart is itself undecodable). -/
def utf8DecodeIgnoreF : Nat → List Nat → List Nat
  | _, [] => []
  | 0, _ :: _ => []
  | fuel + 1, b :: rest =>
    match utf8Step (b :: rest) with
    | Utf8Step.done => []
    | Utf8Step.fail => utf8DecodeIgnoreF fuel rest
    | Utf8Step.emit c rest2 => c :: utf8DecodeIgnoreF fuel rest2

/-- Python `bytes.decode(errors='ignore')`. -/
def utf8DecodeIgnore (l : List Nat) : List Nat := utf8DecodeIgnoreF l.length l

/-! ### Decoder lemmas -/

theorem utf8Step2_ne_done (b : Nat) (rest : List Nat) :
    utf8Step2 b rest ≠ Utf8Step.done := by
  rcases rest with _ | ⟨c1, r2⟩
  · simp [utf8Step2]
  · simp only [utf8Step2]
    split_ifs <;> simp

theorem utf8Step3_ne_done (b : Nat) (rest : List Nat) :
    utf8Step3 b rest ≠ Utf8Step.done := by
  rcases rest with _ | ⟨c1, r2⟩
  · simp [utf8Step3]
  · rcases r2 with _ | ⟨c2, r3⟩
    · simp [utf8Step3]
    · simp only [utf8Step3]
      split_ifs <;> simp

theorem utf8Step4_ne_done (b : Nat) (rest : List Nat) :
    utf8Step4 b rest ≠ Utf8Step.done := by
  rcases rest with _ | ⟨c1, r2⟩
  · simp [utf8Step4]
  · rcases r2 with _ | ⟨c2, r3⟩
    · simp [utf8Step4]
    · rcases r3 with _ | ⟨c3, r4⟩
      · simp [utf8Step4]
      · simp only [utf8Step4]
        split_ifs <;> simp

theorem utf8Step2_emit_length {b c : Nat} {r rest : List Nat}
    (h : utf8Step2 b rest = Utf8Step.emit c r) : r.length < rest.length := by
  rcases rest with _ | ⟨c1, r2⟩
  · simp [utf8Step2] at h
  · simp only [utf8Step2] at h
    split_ifs at h
    cases h; simp

theorem utf8Step3_emit_length {b c : Nat} {r rest : List Nat}
    (h : utf8Step3 b rest = Utf8Step.emit c r) : r.length < rest.length := by
  rcases rest with _ | ⟨c1, r2⟩
  · simp [utf8Step3] at h
  · rcases r2 with _ | ⟨c2, r3⟩
    · simp [utf8Step3] at h
    · simp only [utf8Step3] at h
      split_ifs at h
      cases h
      simp
      omega

theorem utf8Step4_emit_length {b c : Nat} {r rest : List Nat}
    (h : utf8Step4 b rest = Utf8Step.emit c r) : r.length < rest.length := by
  rcases rest with _ | ⟨c1, r2⟩
  · simp [utf8Step4] at h
  · rcases r2 with _ | ⟨c2, r3⟩
    · simp [utf8Step4] at h
    · rcases r3 with _ | ⟨c3, r4⟩
      · simp [utf8Step4] at h
      · simp only [utf8Step4] at h
        split_ifs at h
        cases h
        simp
        omega

theorem utf8Step2_emit_lower {b c : Nat} {r rest : List Nat}
    (hb : 194 ≤ b) (h : utf8Step2 b rest = Utf8Step.emit c r) : 128 ≤ c := by
  rcases rest with _ | ⟨c1, r2⟩
  · simp [utf8Step2] at h
  · simp only [utf8Step2] at h
    split_ifs at h with h1
    simp [isCont] at h1
    cases h
    omega

theorem utf8Step3_emit_lower {b c : Nat} {r rest : List Nat}
    (hb : 224 ≤ b) (h : utf8Step3 b rest = Utf8Step.emit c r) : 128 ≤ c := by
  rcases rest with _ | ⟨c1, r2⟩
  · simp [utf8Step3] at h
  · rcases r2 with _ | ⟨c2, r3⟩
    · simp [utf8Step3] at h
    · simp only [utf8Step3] at h
      split_ifs at h with h1
      cases h
      by_cases hb0 : b = 224
      · subst hb0
        simp [cont3ok, isCont] at h1
        omega
      · simp [cont3ok, hb0, isCont] at h1
        omega

theorem utf8Step4_emit_lower {b c : Nat} {r rest : List Nat}
    (hb : 240 ≤ b) (h : utf8Step4 b rest = Utf8Step.emit c r) : 128 ≤ c := by
  rcases rest with _ | ⟨c1, r2⟩
  · simp [utf8Step4] at h
  · rcases r2 with _ | ⟨c2, r3⟩
    · simp [utf8Step4] at h
    · rcases r3 with _ | ⟨c3, r4⟩
      · simp [utf8Step4] at h
      · simp only [utf8Step4] at h
        split_ifs at h with h1
        cases h
        by_cases hb0 : b = 240
        · subst hb0
          simp [cont4ok, isCont] at h1
          omega
        · simp [cont4ok, hb0, isCont] at h1
          omega

theorem utf8Step_ne_done (b : Nat) (rest : List Nat) :
    utf8Step (b :: rest) ≠ Utf8Step.done := by
  simp only [utf8Step]
  split_ifs
  · simp
  · simp
  · exact utf8Step2_ne_done _ _
  · exact utf8Step3_ne_done _ _
  · exact utf8Step4_ne_done _ _
  · simp

theorem utf8Step_emit_length {l : List Nat} {c : Nat} {r : List Nat}
    (h : utf8Step l = Utf8Step.emit c r) : r.length < l.length := by
  rcases l with _ | ⟨b, rest⟩
  · simp [utf8Step] at h
  · simp only [utf8Step] at h
    split_ifs at h
    · cases h; simp
    · have := utf8Step2_emit_length h
      simp only [List.length_cons]
      omega
    · have := utf8Step3_emit_length h
      simp only [List.length_cons]
      omega
    · have := utf8Step4_emit_length h
      simp only [List.length_cons]
      omega

theorem utf8Step_ascii {b : Nat} (rest : List Nat) (h : b < 128) :
    utf8Step (b :: rest) = Utf8Step.emit b rest := by
  simp only [utf8Step]
  rw [if_pos h]

theorem utf8Step_emit_ascii {l : List Nat} {c : Nat} {r : List Nat}
    (h : utf8Step l = Utf8Step.emit c r) (hc : c < 128) : l = c :: r := by
  rcases l with _ | ⟨b, rest⟩
  · simp [utf8Step] at h
  · simp only [utf8Step] at h
    split_ifs at h
    · cases h; rfl
    · exact absurd (utf8Step2_emit_lower (by omega) h) (by omega)
    · exact absurd (utf8Step3_emit_lower (by omega) h) (by omega)
    · exact absurd (utf8Step4_emit_lower (by omega) h) (by omega)

/-- The per-character [A-Za-z0-9] test of tunnel.py lines 314-321,
applied to a Unicode code point. -/
def isAlnumB (c : Nat) : Bool :=
  (97 ≤ c && c ≤ 122) || (48 ≤ c && c ≤ 57) || (65 ≤ c && c ≤ 90)

theorem isAlnumB_lt_128 {c : Nat} (h : isAlnumB c = true) : c < 128 := by
  simp [isAlnumB] at h
  omega

theorem utf8DecodeF_ascii :
    ∀ (fuel : Nat) (l : List Nat), l.length ≤ fuel →
      (∀ b ∈ l, b < 128) → utf8DecodeF fuel l = some l := by
  intro fuel
  induction fuel with
  | zero =>
    intro l hl _
    rcases l with _ | ⟨b, rest⟩
    · rfl
    · simp at hl
  | succ n ih =>
    intro l hl hb
    rcases l with _ | ⟨b, rest⟩
    · rfl
    · have hb0 : b < 128 := hb b (by simp)
      have hstep := utf8Step_ascii rest hb0
      simp only [utf8DecodeF, hstep]
      rw [ih rest (by simp at hl; omega) (fun x hx => hb x (List.mem_cons_of_mem _ hx))]
      rfl

theorem utf8DecodeIgnoreF_ascii :
    ∀ (fuel : Nat) (l : List Nat), l.length ≤ fuel →
      (∀ b ∈ l, b < 128) → utf8DecodeIgnoreF fuel l = l := by
  intro fuel
  induction fuel with
  | zero =>
    intro l hl _
    rcases l with _ | ⟨b, rest⟩
    · rfl
    · simp at hl
  | succ n ih =>
    intro l hl hb
    rcases l with _ | ⟨b, rest⟩
    · rfl
    · have hb0 : b < 128 := hb b (by simp)
      have hstep := utf8Step_ascii rest hb0
      simp only [utf8DecodeIgnoreF, hstep]
      rw [ih rest (by simp at hl; omega) (fun x hx => hb x (List.mem_cons_of_mem _ hx))]

theorem utf8DecodeIgnoreF_of_strict :
    ∀ (fuel : Nat) (l cs : List Nat), l.length ≤ fuel →
      utf8DecodeF fuel l = some cs → utf8DecodeIgnoreF fuel l = cs := by
  intro fuel
  induction fuel with
  | zero =>
    intro l cs hl h
    rcases l with _ | ⟨b, rest⟩
    · simp [utf8DecodeF] at h
      subst h
      rfl
    · simp at hl
  | succ n ih =>
    intro l cs hl h
    rcases l with _ | ⟨b, rest⟩
    · simp [utf8DecodeF] at h
      subst h
      rfl
    · cases hstep : utf8Step (b :: rest) with
      | done => exact absurd hstep (utf8Step_ne_done b rest)
      | fail =>
        simp only [utf8DecodeF, hstep] at h
        exact absurd h (by simp)
      | emit c rest2 =>
        simp only [utf8DecodeF, hstep] at h
        rcases hr : utf8DecodeF n rest2 with _ | cs2
        · rw [hr] at h
          simp at h
        · rw [hr] at h
          simp at h
          subst h
          have hlen := utf8Step_emit_length hstep
          have h2 : rest2.length ≤ n := by
            simp only [List.length_cons] at hlen hl ⊢
            omega
          simp only [utf8DecodeIgnoreF, hstep]
          rw [ih rest2 cs2 h2 hr]

theorem utf8DecodeF_alnum_eq :
    ∀ (fuel : Nat) (l cs : List Nat), l.length ≤ fuel →
      utf8DecodeF fuel l = some cs →
      (∀ c ∈ cs, isAlnumB c = true) → l = cs := by
  intro fuel
  induction fuel with
  | zero =>
    intro l cs hl h _
    rcases l with _ | ⟨b, rest⟩
    · simp [utf8DecodeF] at h
      subst h
      rfl
    · simp at hl
  | succ n ih =>
    intro l cs hl h halnum
    rcases l with _ | ⟨b, rest⟩
    · simp [utf8DecodeF] at h
      subst h
      rfl
    · cases hstep : utf8Step (b :: rest) with
      | done => exact absurd hstep (utf8Step_ne_done b rest)
      | fail =>
        simp only [utf8DecodeF, hstep] at h
        exact absurd h (by simp)
      | emit c rest2 =>
        simp only [utf8DecodeF, hstep] at h
        rcases hr : utf8DecodeF n rest2 with _ | cs2
        · rw [hr] at h
          simp at h
        · rw [hr] at h
          simp at h
          subst h
          have hc : c < 128 :=
            isAlnumB_lt_128 (halnum c (List.mem_cons_self _ _))
          have hshape := utf8Step_emit_ascii hstep hc
          have hb : b = c := by
            injection hshape with h1 h2
          have hrest : rest = rest2 := by
            injection hshape with h1 h2
          have hlen := utf8Step_emit_length hstep
          have h2n : rest2.length ≤ n := by
            simp only [List.length_cons] at hlen hl
            omega
          rw [hb, hrest, ih rest2 cs2 h2n hr
            (fun x hx => halnum x (List.mem_cons_of_mem _ hx))]

theorem utf8Decode_ascii {l : List Nat} (h : ∀ b ∈ l, b < 128) :
    utf8Decode l = some l :=
  utf8DecodeF_ascii l.length l le_rfl h

theorem utf8DecodeIgnore_ascii {l : List Nat} (h : ∀ b ∈ l, b < 128) :
    utf8DecodeIgnore l = l :=
  utf8DecodeIgnoreF_ascii l.length l le_rfl h

theorem utf8DecodeIgnore_of_strict {l cs : List Nat}
    (h : utf8Decode l = some cs) : utf8DecodeIgnore l = cs :=
  utf8DecodeIgnoreF_of_strict l.length l cs le_rfl h

theorem utf8Decode_alnum_eq {l cs : List Nat} (h : utf8Decode l = some cs)
    (halnum : ∀ c ∈ cs, isAlnumB c = true) : l = cs :=
  utf8DecodeF_alnum_eq l.length l cs le_rfl h halnum

/-! ## Tunnel protocol engine model -/

/-- A successful upstream resolution result {host, port, notify}
(spec 3); `notify` is stored already encoded to bytes, as
`result['notify'].encode()` does at tunnel.py line 124. -/
structure Resolved where
  host : String
  port : Nat
  notify : List Nat
deriving Repr, DecidableEq

/-- Modelled from the spec: the configuration fields used by the
protocol engine (the config module is not under src/).  Spec 3:
`allow` is the set of source addresses permitted to run admin
commands, `secret` the admin password.  The secret is kept as the
list of Unicode code points of the configured string. -/
structure Cfg where
  allow : List String
  secret : List Nat
deriving Repr, DecidableEq

/-- The environment of one client connection: configuration, the
peer's source address, oracles fixing the outcome of the asynchronous
calls (upstream HTTP resolution, backend TCP connect), and the
encoded stats lines served to STAT/INFO. -/
structure Env where
  cfg : Cfg
  sourceIp : String
  oracle : Except String Resolved
  backendOk : Bool
  statsData : List (List Nat)

/-- Observable effects of the engine, in program order. -/
inductive Eff where
  | logConnect
  | logCommand (name : List Nat)
  | logOpenTunnel
  | logError
  | logTerminated
  | logTerminatedFull (sent recv : Nat)
  | wr (data : List Nat)
  | wrPeer (data : List Nat)
  | closeT
  | pauseR
  | resumeR
  | httpGet (ticket : List Nat) (msg : String) (params : List (String × Nat))
  | connectBackend (host : String) (port : Nat)
  | cmpPassword (passwd : List Nat)
deriving Repr, DecidableEq

/-- Mutable per-connection state of TunnelProtocol (client side):
command buffer, notify ticket, destination, which runner is active,
whether the transport has been closed, and the stats counters. -/
structure Engine where
  cmd : List Nat
  notify_ticket : List Nat
  destHost : String
  destPort : Nat
  proxying : Bool
  closed : Bool
  sent : Nat
  recv : Nat
deriving Repr, DecidableEq

/-- State after `__init__` and `connection_made` (server side:
runner is do_command, empty buffers, zero counters). -/
def initEngine : Engine :=
  { cmd := [], notify_ticket := [], destHost := "", destPort := 0,
    proxying := false, closed := false, sent := 0, recv := 0 }

/-- TunnelProtocol._readFromUDS (tunnel.py 277-304): the request URL
embeds `ticket.decode()`, which raises on undecodable bytes before
any request is issued; otherwise the GET is performed and its outcome
is the oracle's.  Returns the effects performed and the result. -/
def readFromUDS (ticket : List Nat) (msg : String)
    (params : List (String × Nat)) (oracle : Except String Resolved) :
    List Eff × Except String Resolved :=
  match utf8Decode ticket with
  | none => ([], Except.error "TICKET COMMS ERROR: undecodable ticket")
  | some _ =>
    ([Eff.httpGet ticket msg params],
      match oracle with
      | Except.ok r => Except.ok r
      | Except.error e => Except.error ("TICKET COMMS ERROR: " ++ e))

/-- TunnelProtocol.getTicketFromUDS (tunnel.py 306-323): length check
on the raw bytes, then the source's first-bad-character loop over
`ticket.decode(errors='ignore')` (equivalent to an all-characters
check for deciding error versus success), then the HTTP request. -/
def getTicketFromUDS (ticket : List Nat) (srcIp : String)
    (oracle : Except String Resolved) : List Eff × Except String Resolved :=
  if ticket.length ≠ TICKET_LENGTH then
    ([], Except.error "TICKET INVALID (len)")
  else if (utf8DecodeIgnore ticket).all isAlnumB then
    readFromUDS ticket srcIp [] oracle
  else
    ([], Except.error "TICKET INVALID (char)")

/-- TunnelProtocol.notifyEnd (tunnel.py 234-241) together with
notifyEndToUds (325-334) and the URL construction of _readFromUDS:
when a notify ticket is set, the stop notification GET carries the
session's sent/recv counters and the ticket is cleared so no further
notification can ever fire. -/
def notifyEnd (e : Engine) : Engine × List Eff :=
  if e.notify_ticket = [] then (e, [])
  else
    ({ e with notify_ticket := [] },
      match utf8Decode e.notify_ticket with
      | none => []
      | some _ =>
        [Eff.httpGet e.notify_ticket "stop"
          [("sent", e.sent), ("recv", e.recv)]])

/-- TunnelProtocol.close_connection (tunnel.py 260-275): close the
transport; if a destination was stored, log the full TERMINATED line
with the counters and notify the broker, else log the short one. -/
def close_connection (e : Engine) : Engine × List Eff :=
  if e.destHost ≠ "" then
    ((notifyEnd { e with closed := true }).1,
      [Eff.closeT, Eff.logTerminatedFull e.sent e.recv] ++
        (notifyEnd { e with closed := true }).2)
  else
    ({ e with closed := true }, [Eff.closeT, Eff.logTerminated])

/-- TunnelProtocol.process_stats (tunnel.py 152-185).  The stats
lines returned by stats.GlobalStats.get_stats are supplied by the
environment already encoded (the stats module is outside the
modelled slice); the `full` flag is accepted and, as in the source,
unused.  The finally clause always runs close_connection. -/
def process_stats (env : Env) (e : Engine) (_full : Bool) :
    Engine × List Eff :=
  if e.cmd.length < PASSWORD_LENGTH + COMMAND_LENGTH then (e, [])
  else
    let cmdName := e.cmd.take COMMAND_LENGTH
    if env.sourceIp ∈ env.cfg.allow then
      let passwd := e.cmd.drop COMMAND_LENGTH
      let e1 := { e with cmd := e.cmd.take 4 }
      if utf8DecodeIgnore passwd = env.cfg.secret then
        ((close_connection e1).1,
          [Eff.logCommand cmdName, Eff.cmpPassword passwd] ++
            env.statsData.map (fun v => Eff.wr (v ++ [10])) ++
            [Eff.logTerminated] ++ (close_connection e1).2)
      else
        ((close_connection e1).1,
          [Eff.logCommand cmdName, Eff.cmpPassword passwd,
           Eff.wr bFORBIDDEN] ++ (close_connection e1).2)
    else
      ((close_connection e).1,
        [Eff.logCommand cmdName, Eff.wr bFORBIDDEN] ++ (close_connection e).2)

/-- The open_other_side coroutine (tunnel.py 111-148), with the
asynchronous upstream and backend outcomes taken from the
environment.  On resolution failure the transport is closed directly
(not via close_connection); on success destination and notify ticket
are stored before the backend connect is attempted. -/
def open_other_side (env : Env) (e : Engine) (ticket : List Nat) :
    Engine × List Eff :=
  match (getTicketFromUDS ticket env.sourceIp env.oracle).2 with
  | Except.error _ =>
    ({ e with closed := true },
      (getTicketFromUDS ticket env.sourceIp env.oracle).1 ++
        [Eff.logError, Eff.wr bERROR_TICKET, Eff.closeT])
  | Except.ok r =>
    let e1 : Engine :=
      { e with
        destHost := r.host
        destPort := r.port
        notify_ticket := r.notify }
    if env.backendOk then
      (e1, (getTicketFromUDS ticket env.sourceIp env.oracle).1 ++
        [Eff.logOpenTunnel, Eff.connectBackend r.host r.port,
         Eff.resumeR, Eff.wr bOK])
    else
      ((close_connection e1).1,
        (getTicketFromUDS ticket env.sourceIp env.oracle).1 ++
          [Eff.logOpenTunnel, Eff.connectBackend r.host r.port,
           Eff.logError] ++ (close_connection e1).2)

/-- TunnelProtocol.process_open (tunnel.py 94-150): waits until
COMMAND_LENGTH + TICKET_LENGTH bytes are buffered, then treats every
byte after the command as the ticket, pauses reading, clears the
buffer, runs open_other_side and switches the runner to do_proxy. -/
def process_open (env : Env) (e : Engine) : Engine × List Eff :=
  if e.cmd.length < TICKET_LENGTH + COMMAND_LENGTH then (e, [])
  else
    let ticket := e.cmd.drop COMMAND_LENGTH
    let e1 : Engine := { e with cmd := [], proxying := true }
    ((open_other_side env e1 ticket).1,
      Eff.pauseR :: (open_other_side env e1 ticket).2)

/-- TunnelProtocol.do_command (tunnel.py 187-213).  The source's
`command in (STAT, INFO)` test is split into two equal branches
passing the corresponding `full` flag. -/
def do_command (env : Env) (e : Engine) (data : List Nat) :
    Engine × List Eff :=
  let e0 := { e with cmd := e.cmd ++ data }
  if COMMAND_LENGTH ≤ e0.cmd.length then
    let command := e0.cmd.take COMMAND_LENGTH
    if command = COMMAND_OPEN then
      ((process_open env e0).1, Eff.logConnect :: (process_open env e0).2)
    else if command = COMMAND_TEST then
      ((close_connection e0).1,
        [Eff.logConnect, Eff.logCommand COMMAND_TEST, Eff.wr bOK] ++
          (close_connection e0).2)
    else if command = COMMAND_STAT then
      ((process_stats env e0 true).1,
        Eff.logConnect :: (process_stats env e0 true).2)
    else if command = COMMAND_INFO then
      ((process_stats env e0 false).1,
        Eff.logConnect :: (process_stats env e0 false).2)
    else
      ((close_connection e0).1,
        [Eff.logConnect, Eff.logError, Eff.wr bERROR_COMMAND] ++
          (close_connection e0).2)
  else (e0, [])

/-- TunnelProtocol.do_proxy (tunnel.py 215-218) on the client-side
engine, whose counter is the sent counter (tunnel.py 83): count the
bytes and forward them verbatim to the peer transport. -/
def do_proxy (e : Engine) (data : List Nat) : Engine × List Eff :=
  ({ e with sent := e.sent + data.length }, [Eff.wrPeer data])

/-- Externally visible events delivered to one client-side engine. -/
inductive ClientEvent where
  | dataRecv (data : List Nat)
  | connLost
deriving Repr, DecidableEq

/-- data_received (tunnel.py 230-232) dispatching to the current
runner, and connection_lost (tunnel.py 243-250), which fires
notifyEnd.  After the transport is closed no further data events are
delivered to the protocol object. -/
def step (env : Env) (e : Engine) : ClientEvent → Engine × List Eff
  | ClientEvent.dataRecv data =>
    if e.closed then (e, [])
    else if e.proxying then do_proxy e data
    else do_command env e data
  | ClientEvent.connLost =>
    notifyEnd { e with closed := true }

/-- Run a whole connection: fold the events, concatenating the
effects in order. -/
def run (env : Env) : Engine → List ClientEvent → Engine × List Eff
  | e, [] => (e, [])
  | e, ev :: evs =>
    ((run env (step env e ev).1 evs).1,
      (step env e ev).2 ++ (run env (step env e ev).1 evs).2)

/-! ### Effect observation helpers -/

/-- Number of effects in a list satisfying a predicate. -/
def countEff (p : Eff → Bool) (l : List Eff) : Nat := (l.filter p).length

def isLogConnect : Eff → Bool
  | Eff.logConnect => true
  | _ => false

/-- Terminal log lines: TERMINATED (short or full form) or ERROR. -/
def isTerminalLog : Eff → Bool
  | Eff.logTerminated => true
  | Eff.logTerminatedFull _ _ => true
  | Eff.logError => true
  | _ => false

def isWr : Eff → Bool
  | Eff.wr _ => true
  | _ => false

/-- A ticket-resolution GET: the only upstream requests without query
parameters (the stop notification always carries sent and recv). -/
def isResolveGet : Eff → Bool
  | Eff.httpGet _ _ [] => true
  | _ => false

def isBackendConnect : Eff → Bool
  | Eff.connectBackend _ _ => true
  | _ => false

def isCmpPassword : Eff → Bool
  | Eff.cmpPassword _ => true
  | _ => false

/-- Concatenation of everything written to the client transport. -/
def writesOf (l : List Eff) : List Nat :=
  (l.map (fun ef =>
    match ef with
    | Eff.wr d => d
    | _ => [])).flatten

/-- A concrete environment used by counterexamples and witnesses:
upstream resolution fails, the backend connect fails, empty allow
list, and no stats records. -/
def cEnv : Env :=
  { cfg := { allow := [], secret := [] }, sourceIp := "203.0.113.5",
    oracle := Except.error "upstream down", backendOk := false,
    statsData := [] }

example :
    (run cEnv initEngine [ClientEvent.dataRecv COMMAND_TEST]).2 =
      [Eff.logConnect, Eff.logCommand COMMAND_TEST, Eff.wr bOK,
       Eff.closeT, Eff.logTerminated] := by decide

example :
    (run cEnv initEngine
      [ClientEvent.dataRecv (COMMAND_OPEN ++ List.replicate 47 65),
       ClientEvent.connLost]).2 = [Eff.logConnect] := by decide

/-! ## Generic lemmas about the model -/

theorem countEff_append (p : Eff → Bool) (l1 l2 : List Eff) :
    countEff p (l1 ++ l2) = countEff p l1 + countEff p l2 := by
  simp [countEff, List.filter_append]

theorem writesOf_append (l1 l2 : List Eff) :
    writesOf (l1 ++ l2) = writesOf l1 ++ writesOf l2 := by
  simp [writesOf]

theorem getTicketFromUDS_effs (t : List Nat) (src : String)
    (oracle : Except String Resolved) :
    (getTicketFromUDS t src oracle).1 = [] ∨
      (getTicketFromUDS t src oracle).1 = [Eff.httpGet t src []] := by
  unfold getTicketFromUDS readFromUDS
  split_ifs
  · left
    rfl
  · rcases utf8Decode t with _ | cs
    · left
      rfl
    · right
      rfl
  · left
    rfl

theorem getTicketFromUDS_valid (t : List Nat) (src : String)
    (oracle : Except String Resolved) (r : Resolved)
    (ht : t.length = TICKET_LENGTH) (ha : t.all isAlnumB = true)
    (ho : oracle = Except.ok r) :
    getTicketFromUDS t src oracle = ([Eff.httpGet t src []], Except.ok r) := by
  have hascii : ∀ b ∈ t, b < 128 := by
    intro b hb
    rw [List.all_eq_true] at ha
    exact isAlnumB_lt_128 (ha b hb)
  unfold getTicketFromUDS readFromUDS
  rw [if_neg (by simp [ht])]
  rw [utf8DecodeIgnore_ascii hascii, if_pos ha]
  rw [utf8Decode_ascii hascii, ho]

theorem getTicketFromUDS_valid_err (t : List Nat) (src : String)
    (oracle : Except String Resolved) (msg : String)
    (ht : t.length = TICKET_LENGTH) (ha : t.all isAlnumB = true)
    (ho : oracle = Except.error msg) :
    getTicketFromUDS t src oracle =
      ([Eff.httpGet t src []],
        Except.error ("TICKET COMMS ERROR: " ++ msg)) := by
  have hascii : ∀ b ∈ t, b < 128 := by
    intro b hb
    rw [List.all_eq_true] at ha
    exact isAlnumB_lt_128 (ha b hb)
  unfold getTicketFromUDS readFromUDS
  rw [if_neg (by simp [ht])]
  rw [utf8DecodeIgnore_ascii hascii, if_pos ha]
  rw [utf8Decode_ascii hascii, ho]

/-! ## Claim C1 -/

/-- C1: for every OPEN command, the ticket handed to the upstream
resolver triggers the resolution HTTP request exactly when it is 48
bytes long and every byte is ASCII alphanumeric; for any other ticket
(in particular of 47 or 49 bytes, or containing a non-alphanumeric
byte) getTicketFromUDS performs no upstream HTTP request at all, and
when the request is made it carries exactly the validated ticket.
Undecodable tickets that slip past the errors-ignore character check
still make no request because the URL construction in _readFromUDS
strict-decodes the ticket first. -/
theorem C1_open_ticket_gate (ticket : List Nat) (src : String)
    (oracle : Except String Resolved) :
    (getTicketFromUDS ticket src oracle).1 =
      if ticket.length = TICKET_LENGTH ∧ ticket.all isAlnumB = true
      then [Eff.httpGet ticket src []] else [] := by
  by_cases hlen : ticket.length = TICKET_LENGTH
  · by_cases halnum : ticket.all isAlnumB = true
    · have hascii : ∀ b ∈ ticket, b < 128 := by
        intro b hb
        rw [List.all_eq_true] at halnum
        exact isAlnumB_lt_128 (halnum b hb)
      rw [if_pos ⟨hlen, halnum⟩]
      unfold getTicketFromUDS readFromUDS
      rw [if_neg (by simp [hlen])]
      rw [utf8DecodeIgnore_ascii hascii, if_pos halnum]
      rw [utf8Decode_ascii hascii]
    · rw [if_neg (by tauto)]
      unfold getTicketFromUDS
      rw [if_neg (by simp [hlen])]
      by_cases hcheck : (utf8DecodeIgnore ticket).all isAlnumB = true
      · rw [if_pos hcheck]
        rcases hdec : utf8Decode ticket with _ | cs
        · simp [readFromUDS, hdec]
        · exfalso
          have hig := utf8DecodeIgnore_of_strict hdec
          have hts : ticket = cs := by
            apply utf8Decode_alnum_eq hdec
            rw [hig] at hcheck
            rw [List.all_eq_true] at hcheck
            exact hcheck
          apply halnum
          rw [hts, ← hig]
          exact hcheck
      · rw [if_neg hcheck]
  · rw [if_neg (by tauto)]
    unfold getTicketFromUDS
    rw [if_pos (by simp [hlen])]

/-! ## Session counters and end notification (claim C2)

The two paired engines of an established session share one Stats
object (tunnel.py 77): the client-side engine adds forwarded chunk
lengths to the sent counter, the backend-side engine to the recv
counter (tunnel.py 78-83 and 215-218), and the client-side engine
holds the notify ticket.  notifyEnd may be invoked repeatedly (from
close_connection and from connection_lost of either side). -/

/-- Events in the life of one established session: a chunk of n bytes
pumped client-to-backend by the client-side engine's do_proxy, a
chunk pumped backend-to-client by the backend-side engine, or one
invocation of notifyEnd. -/
inductive SessEvent where
  | fromClient (n : Nat)
  | fromBackend (n : Nat)
  | endNotify
deriving Repr, DecidableEq

/-- One stop-notification HTTP request with its query parameters
(notifyEndToUds, tunnel.py 325-334). -/
structure NotifyCall where
  ticket : List Nat
  sent : Nat
  recv : Nat
deriving Repr, DecidableEq

/-- Session state shared by the two engines: the Stats counters
(modelled from the spec 3 Stats counter, the stats module not being
under src/: `{sent: u64, recv: u64}`) plus the notify ticket held by
the client-side engine. -/
structure Session where
  sent : Nat
  recv : Nat
  notify_ticket : List Nat
deriving Repr, DecidableEq

/-- One session event: counter updates from do_proxy (tunnel.py 216)
and the one-shot notification of notifyEnd (tunnel.py 234-241, which
clears the ticket after scheduling the request). -/
def sessStep (s : Session) : SessEvent → Session × List NotifyCall
  | SessEvent.fromClient n => ({ s with sent := s.sent + n }, [])
  | SessEvent.fromBackend n => ({ s with recv := s.recv + n }, [])
  | SessEvent.endNotify =>
    if s.notify_ticket = [] then (s, [])
    else ({ s with notify_ticket := [] },
      [{ ticket := s.notify_ticket, sent := s.sent, recv := s.recv }])

/-- Fold session events, collecting the notify requests issued. -/
def sessRun (s : Session) : List SessEvent → Session × List NotifyCall
  | [] => (s, [])
  | ev :: evs =>
    ((sessRun (sessStep s ev).1 evs).1,
      (sessStep s ev).2 ++ (sessRun (sessStep s ev).1 evs).2)

/-- Bytes forwarded client-to-backend among a list of events. -/
def clientBytes (evs : List SessEvent) : Nat :=
  (evs.map (fun ev =>
    match ev with
    | SessEvent.fromClient n => n
    | _ => 0)).sum

/-- Bytes forwarded backend-to-client among a list of events. -/
def backendBytes (evs : List SessEvent) : Nat :=
  (evs.map (fun ev =>
    match ev with
    | SessEvent.fromBackend n => n
    | _ => 0)).sum

/-- Whether the event list contains an invocation of notifyEnd. -/
def hasEndNotify (evs : List SessEvent) : Bool :=
  evs.any (fun ev =>
    match ev with
    | SessEvent.endNotify => true
    | _ => false)

theorem sessRun_no_ticket :
    ∀ (evs : List SessEvent) (s : Session),
      s.notify_ticket = [] → (sessRun s evs).2 = [] := by
  intro evs
  induction evs with
  | nil => intro s _; rfl
  | cons ev evs ih =>
    intro s h
    rcases ev with n | n | _
    · simpa [sessRun, sessStep] using ih { s with sent := s.sent + n } h
    · simpa [sessRun, sessStep] using ih { s with recv := s.recv + n } h
    · simp only [sessRun, sessStep, if_pos h]
      simpa using ih s h

theorem sessRun_calls_le_one :
    ∀ (evs : List SessEvent) (s : Session),
      (sessRun s evs).2.length ≤ 1 := by
  intro evs
  induction evs with
  | nil => intro s; simp [sessRun]
  | cons ev evs ih =>
    intro s
    rcases ev with n | n | _
    · simpa [sessRun, sessStep] using ih { s with sent := s.sent + n }
    · simpa [sessRun, sessStep] using ih { s with recv := s.recv + n }
    · by_cases h : s.notify_ticket = []
      · simp only [sessRun, sessStep, if_pos h]
        simpa using ih s
      · simp only [sessRun, sessStep, if_neg h]
        rw [List.length_append]
        have hrest :=
          sessRun_no_ticket evs { s with notify_ticket := [] } rfl
        rw [hrest]
        simp

theorem sessRun_noEnd :
    ∀ (evs : List SessEvent) (s : Session),
      hasEndNotify evs = false →
      sessRun s evs =
        ({ sent := s.sent + clientBytes evs,
           recv := s.recv + backendBytes evs,
           notify_ticket := s.notify_ticket }, []) := by
  intro evs
  induction evs with
  | nil =>
    intro s _
    rcases s with ⟨ss, sr, st⟩
    simp [sessRun, clientBytes, backendBytes]
  | cons ev evs ih =>
    intro s h
    rcases ev with n | n | _
    · have h2 : hasEndNotify evs = false := by
        simpa [hasEndNotify] using h
      simp only [sessRun, sessStep]
      rw [ih { s with sent := s.sent + n } h2]
      simp [clientBytes, backendBytes, Nat.add_assoc]
    · have h2 : hasEndNotify evs = false := by
        simpa [hasEndNotify] using h
      simp only [sessRun, sessStep]
      rw [ih { s with recv := s.recv + n } h2]
      simp [clientBytes, backendBytes, Nat.add_assoc]
    · exfalso
      simp [hasEndNotify] at h

/-! ## Claim C2 -/

/-- C2: for every session whose OPEN succeeded (nonempty notify
ticket), at most one notify request is ever issued no matter how
often the end-notification path runs, and the single request carries
sent and recv equal to the byte counts accumulated for the
client-to-backend and backend-to-client directions up to the first
end of the session; closing again afterwards fires nothing. -/
theorem C2_notify_once (t : List Nat) (evs1 evs2 : List SessEvent)
    (ht : t ≠ []) (h1 : hasEndNotify evs1 = false) :
    (sessRun { sent := 0, recv := 0, notify_ticket := t }
        (evs1 ++ SessEvent.endNotify :: evs2)).2 =
      [{ ticket := t, sent := clientBytes evs1, recv := backendBytes evs1 }] ∧
    ∀ (s : Session) (evs : List SessEvent), (sessRun s evs).2.length ≤ 1 := by
  constructor
  · have happ :
        ∀ (l1 l2 : List SessEvent) (s : Session),
          sessRun s (l1 ++ l2) =
            ((sessRun (sessRun s l1).1 l2).1,
              (sessRun s l1).2 ++ (sessRun (sessRun s l1).1 l2).2) := by
      intro l1
      induction l1 with
      | nil => intro l2 s; simp [sessRun]
      | cons ev l1 ih =>
        intro l2 s
        simp only [List.cons_append, sessRun]
        rw [List.append_eq, ih]
        simp
    rw [happ]
    rw [sessRun_noEnd evs1 _ h1]
    simp only [sessRun, sessStep]
    rw [if_neg (by simpa using ht)]
    simp only []
    rw [sessRun_no_ticket evs2 _ rfl]
    simp
  · intro s evs
    exact sessRun_calls_le_one evs s

/-- Witness for C2 at a concrete session: 5 bytes client-to-backend,
3 bytes backend-to-client, then two invocations of the
end-notification path; exactly one notify request, carrying sent=5
and recv=3, is issued. -/
theorem C2_notify_once_witness :
    (sessRun { sent := 0, recv := 0, notify_ticket := [78] }
        ([SessEvent.fromClient 5, SessEvent.fromBackend 3] ++
          SessEvent.endNotify :: [SessEvent.endNotify])).2 =
      [{ ticket := [78], sent := 5, recv := 3 }] :=
  (C2_notify_once [78] [SessEvent.fromClient 5, SessEvent.fromBackend 3]
    [SessEvent.endNotify] (by decide) (by decide)).1

theorem run_open_complete (env : Env) (args : List Nat)
    (h : TICKET_LENGTH ≤ args.length) :
    run env initEngine [ClientEvent.dataRecv (COMMAND_OPEN ++ args)] =
      ((open_other_side env { initEngine with cmd := [], proxying := true } args).1,
        [Eff.logConnect, Eff.pauseR] ++
          (open_other_side env { initEngine with cmd := [], proxying := true } args).2) := by
  have h48 : 48 ≤ args.length := h
  have h4 : COMMAND_LENGTH ≤ (COMMAND_OPEN ++ args).length := by
    simp [COMMAND_OPEN, COMMAND_LENGTH]
  have hnl : ¬ ((COMMAND_OPEN ++ args).length < TICKET_LENGTH + COMMAND_LENGTH) := by
    simp [COMMAND_OPEN, TICKET_LENGTH, COMMAND_LENGTH]
    omega
  have htake : List.take COMMAND_LENGTH (COMMAND_OPEN ++ args) = COMMAND_OPEN := rfl
  have hdrop : List.drop COMMAND_LENGTH (COMMAND_OPEN ++ args) = args := rfl
  simp only [run, step, do_command, process_open, initEngine, List.nil_append]
  rw [htake, hdrop]
  have h4x : COMMAND_LENGTH ≤ COMMAND_OPEN.length + args.length := by
    simp [COMMAND_OPEN, COMMAND_LENGTH]
  have hnlx : ¬ (COMMAND_OPEN.length + args.length <
      TICKET_LENGTH + COMMAND_LENGTH) := by
    simp only [COMMAND_OPEN, TICKET_LENGTH, COMMAND_LENGTH,
      List.length_cons, List.length_nil]
    omega
  simp [h4x, hnlx]

/-- Whether an Except value is an error. -/
def isErr : Except String Resolved → Bool
  | Except.error _ => true
  | _ => false

/-! ## Claim C3 (corrected) -/

/-- Counterexample to C3 as stated: a client that sends OPEN followed
by only 47 ticket bytes and then closes receives no reply at all (the
claim asserts a reply starting with ERROR_TICKET).  The engine is
still waiting for the 52nd byte when the connection is lost: the only
effect of the whole connection is the CONNECT FROM log line, and in
particular nothing is ever written to the client transport. -/
theorem C3_counterexample :
    (run cEnv initEngine
      [ClientEvent.dataRecv (COMMAND_OPEN ++ List.replicate 47 65),
       ClientEvent.connLost]).2 = [Eff.logConnect] ∧
    countEff isWr (run cEnv initEngine
      [ClientEvent.dataRecv (COMMAND_OPEN ++ List.replicate 47 65),
       ClientEvent.connLost]).2 = 0 := by decide

/-- C3 amended: for every OPEN dispatched with a complete buffered
argument (at least 48 bytes after the command), if the ticket
validation or the upstream resolution fails the relay replies
ERROR_TICKET and closes the connection; but a client that sends OPEN
followed by only 47 ticket bytes and then closes receives no reply at
all, because the relay is still waiting for more ticket bytes. -/
theorem C3_amended :
    (∀ (env : Env) (args : List Nat), TICKET_LENGTH ≤ args.length →
      isErr (getTicketFromUDS args env.sourceIp env.oracle).2 = true →
      Eff.wr bERROR_TICKET ∈
        (run env initEngine [ClientEvent.dataRecv (COMMAND_OPEN ++ args)]).2 ∧
      Eff.closeT ∈
        (run env initEngine [ClientEvent.dataRecv (COMMAND_OPEN ++ args)]).2) ∧
    (∀ (env : Env) (t : List Nat), t.length = 47 →
      (run env initEngine
        [ClientEvent.dataRecv (COMMAND_OPEN ++ t), ClientEvent.connLost]).2 =
        [Eff.logConnect]) := by
  constructor
  · intro env args hlen herr
    rw [run_open_complete env args hlen]
    rcases hg : (getTicketFromUDS args env.sourceIp env.oracle).2 with msg | r
    · simp only [open_other_side, hg]
      constructor <;> simp
    · rw [hg] at herr
      simp [isErr] at herr
  · intro env t ht
    have htake : List.take COMMAND_LENGTH (COMMAND_OPEN ++ t) = COMMAND_OPEN := rfl
    simp only [run, step, do_command, process_open, initEngine, List.nil_append]
    rw [htake]
    have h4x : COMMAND_LENGTH ≤ COMMAND_OPEN.length + t.length := by
      simp [COMMAND_OPEN, COMMAND_LENGTH]
    have hltx : COMMAND_OPEN.length + t.length <
        TICKET_LENGTH + COMMAND_LENGTH := by
      simp only [COMMAND_OPEN, TICKET_LENGTH, COMMAND_LENGTH,
        List.length_cons, List.length_nil]
      omega
    simp [h4x, hltx, notifyEnd]

/-- Witness for the amended C3 at a concrete input: a valid-looking
48-byte ticket whose upstream resolution fails gets ERROR_TICKET and
a closed transport. -/
theorem C3_amended_witness :
    Eff.wr bERROR_TICKET ∈
      (run cEnv initEngine
        [ClientEvent.dataRecv (COMMAND_OPEN ++ List.replicate 48 65)]).2 ∧
    Eff.closeT ∈
      (run cEnv initEngine
        [ClientEvent.dataRecv (COMMAND_OPEN ++ List.replicate 48 65)]).2 :=
  C3_amended.1 cEnv (List.replicate 48 65) (by decide) (by decide)

/-! ## Claim C8 -/

/-- C8: if the buffered bytes when OPEN is dispatched contain more
than 48 bytes after the command (a valid 48-byte ticket immediately
followed by payload in the same read), every byte after the command
is treated as the ticket, so the OPEN is rejected with ERROR_TICKET
and no upstream resolution request is made, even though the first 48
argument bytes form a valid ticket. -/
theorem C8_extra_bytes_reject (env : Env) (t extra : List Nat)
    (ht : t.length = TICKET_LENGTH) (_ha : t.all isAlnumB = true)
    (hx : extra ≠ []) :
    Eff.wr bERROR_TICKET ∈
      (run env initEngine
        [ClientEvent.dataRecv (COMMAND_OPEN ++ (t ++ extra))]).2 ∧
    countEff isResolveGet
      (run env initEngine
        [ClientEvent.dataRecv (COMMAND_OPEN ++ (t ++ extra))]).2 = 0 := by
  have ht' : t.length = 48 := ht
  have hlen : TICKET_LENGTH ≤ (t ++ extra).length := by
    simp only [List.length_append, TICKET_LENGTH, ht']
    omega
  rw [run_open_complete env (t ++ extra) hlen]
  have hx' : extra.length ≠ 0 := by
    simpa using hx
  have hne : (t ++ extra).length ≠ TICKET_LENGTH := by
    simp only [List.length_append, TICKET_LENGTH, ht']
    omega
  have hg : getTicketFromUDS (t ++ extra) env.sourceIp env.oracle =
      ([], Except.error "TICKET INVALID (len)") := by
    unfold getTicketFromUDS
    rw [if_pos hne]
  constructor
  · simp only [open_other_side, hg]
    simp
  · simp only [open_other_side, hg]
    simp [countEff, isResolveGet]

/-- Witness for C8: OPEN with the valid ticket of 48 letters a
followed by the two payload bytes hi in the same read is rejected
with ERROR_TICKET and performs no upstream request. -/
theorem C8_extra_bytes_reject_witness :
    Eff.wr bERROR_TICKET ∈
      (run cEnv initEngine
        [ClientEvent.dataRecv
          (COMMAND_OPEN ++ (List.replicate 48 97 ++ [104, 105]))]).2 ∧
    countEff isResolveGet
      (run cEnv initEngine
        [ClientEvent.dataRecv
          (COMMAND_OPEN ++ (List.replicate 48 97 ++ [104, 105]))]).2 = 0 :=
  C8_extra_bytes_reject cEnv (List.replicate 48 97) [104, 105]
    (by decide) (by decide) (by decide)

/-! ## Claim C10 -/

/-- C10: if upstream ticket resolution succeeds but the TCP
connection to the resolved backend fails, the relay still issues the
stop notification (with sent=0 and recv=0) and logs the full
TERMINATED line for the session, because destination and notify
token are stored before the backend connection is attempted.  The
whole effect trace of such a connection is given explicitly. -/
theorem C10_backend_fail_still_notifies (env : Env) (t : List Nat)
    (r : Resolved) (ht : t.length = TICKET_LENGTH)
    (ha : t.all isAlnumB = true) (ho : env.oracle = Except.ok r)
    (hHost : r.host ≠ "") (hn : r.notify ≠ [])
    (hnd : (utf8Decode r.notify).isSome = true)
    (hb : env.backendOk = false) :
    (run env initEngine [ClientEvent.dataRecv (COMMAND_OPEN ++ t)]).2 =
      [Eff.logConnect, Eff.pauseR, Eff.httpGet t env.sourceIp [],
       Eff.logOpenTunnel, Eff.connectBackend r.host r.port, Eff.logError,
       Eff.closeT, Eff.logTerminatedFull 0 0,
       Eff.httpGet r.notify "stop" [("sent", 0), ("recv", 0)]] := by
  have hlen : TICKET_LENGTH ≤ t.length := le_of_eq ht.symm
  rw [run_open_complete env t hlen]
  have hg := getTicketFromUDS_valid t env.sourceIp env.oracle r ht ha ho
  rcases hd : utf8Decode r.notify with _ | cs
  · rw [hd] at hnd
    simp at hnd
  · simp only [open_other_side, hg]
    simp [close_connection, notifyEnd, hHost, hn, hd, hb, initEngine]

/-- Witness for C10: a concrete resolution result with failing
backend connect still produces the stop notification with zero
counters and the full TERMINATED line. -/
theorem C10_backend_fail_still_notifies_witness :
    (run
      { cfg := { allow := [], secret := [] }, sourceIp := "198.51.100.7",
        oracle := Except.ok
          { host := "h1", port := 3389, notify := [78, 79, 84] },
        backendOk := false, statsData := [] }
      initEngine [ClientEvent.dataRecv (COMMAND_OPEN ++ List.replicate 48 97)]).2 =
      [Eff.logConnect, Eff.pauseR,
       Eff.httpGet (List.replicate 48 97) "198.51.100.7" [],
       Eff.logOpenTunnel, Eff.connectBackend "h1" 3389, Eff.logError,
       Eff.closeT, Eff.logTerminatedFull 0 0,
       Eff.httpGet [78, 79, 84] "stop" [("sent", 0), ("recv", 0)]] :=
  C10_backend_fail_still_notifies _ (List.replicate 48 97)
    { host := "h1", port := 3389, notify := [78, 79, 84] }
    (by decide) (by decide) rfl (by decide) (by decide) (by decide) rfl

/-! ## STAT / INFO dispatch -/

/-- The `full` flag of process_stats is unused in the source (the
stats data does not depend on it), so both dispatches coincide. -/
theorem process_stats_full_irrel (env : Env) (e : Engine) :
    process_stats env e false = process_stats env e true := rfl

theorem run_stats_complete (env : Env) (c pw : List Nat)
    (hc : c = COMMAND_STAT ∨ c = COMMAND_INFO)
    (hpw : pw.length = PASSWORD_LENGTH) :
    run env initEngine [ClientEvent.dataRecv (c ++ pw)] =
      ((process_stats env { initEngine with cmd := c ++ pw } true).1,
        Eff.logConnect ::
          (process_stats env { initEngine with cmd := c ++ pw } true).2) := by
  rcases hc with rfl | rfl
  · have htake :
        List.take COMMAND_LENGTH (COMMAND_STAT ++ pw) = COMMAND_STAT := rfl
    have h4x : COMMAND_LENGTH ≤ COMMAND_STAT.length + pw.length := by
      simp [COMMAND_STAT, COMMAND_LENGTH]
    simp only [run, step, do_command, initEngine, List.nil_append]
    rw [htake]
    simp [h4x, COMMAND_STAT, COMMAND_TEST, COMMAND_OPEN, COMMAND_INFO]
    simp only [COMMAND_LENGTH]
    omega
  · have htake :
        List.take COMMAND_LENGTH (COMMAND_INFO ++ pw) = COMMAND_INFO := rfl
    have h4x : COMMAND_LENGTH ≤ COMMAND_INFO.length + pw.length := by
      simp [COMMAND_INFO, COMMAND_LENGTH]
    simp only [run, step, do_command, initEngine, List.nil_append]
    rw [htake]
    rw [process_stats_full_irrel]
    simp [h4x, COMMAND_STAT, COMMAND_TEST, COMMAND_OPEN, COMMAND_INFO]
    simp only [COMMAND_LENGTH]
    omega

/-! ## Claim C5 -/

/-- C5: for every STAT or INFO command arriving from a source address
not in the configured allow list, the relay replies FORBIDDEN and
closes the connection, and the supplied 40-byte password is never
compared to the secret (no password-comparison effect occurs). -/
theorem C5_forbidden_source (env : Env) (c pw : List Nat)
    (hc : c = COMMAND_STAT ∨ c = COMMAND_INFO)
    (hpw : pw.length = PASSWORD_LENGTH)
    (hsrc : env.sourceIp ∉ env.cfg.allow) :
    (run env initEngine [ClientEvent.dataRecv (c ++ pw)]).2 =
      [Eff.logConnect, Eff.logCommand c, Eff.wr bFORBIDDEN,
       Eff.closeT, Eff.logTerminated] ∧
    countEff isCmpPassword
      (run env initEngine [ClientEvent.dataRecv (c ++ pw)]).2 = 0 := by
  rw [run_stats_complete env c pw hc hpw]
  have hc4 : c.length = 4 := by
    rcases hc with rfl | rfl <;> rfl
  have hnl : ¬ ((c ++ pw).length < PASSWORD_LENGTH + COMMAND_LENGTH) := by
    simp only [List.length_append, PASSWORD_LENGTH, COMMAND_LENGTH, hc4, hpw]
    omega
  have htake : (c ++ pw).take COMMAND_LENGTH = c := by
    rcases hc with rfl | rfl <;> rfl
  simp only [process_stats, initEngine]
  rw [if_neg hnl, if_neg hsrc, htake]
  simp [close_connection, countEff, isCmpPassword]

/-- Witness for C5: STAT with a 40-byte password from a source not in
the allow list gets FORBIDDEN, the connection is closed, and no
password comparison happens. -/
theorem C5_forbidden_source_witness :
    (run cEnv initEngine
      [ClientEvent.dataRecv (COMMAND_STAT ++ List.replicate 40 65)]).2 =
      [Eff.logConnect, Eff.logCommand COMMAND_STAT, Eff.wr bFORBIDDEN,
       Eff.closeT, Eff.logTerminated] ∧
    countEff isCmpPassword
      (run cEnv initEngine
        [ClientEvent.dataRecv (COMMAND_STAT ++ List.replicate 40 65)]).2 = 0 :=
  C5_forbidden_source cEnv COMMAND_STAT (List.replicate 40 65)
    (Or.inl rfl) (by decide) (by decide)

/-! ## No backend socket for non-OPEN connections -/

/-- The bytes carried by one client event. -/
def evBytes : ClientEvent → List Nat
  | ClientEvent.dataRecv d => d
  | ClientEvent.connLost => []

/-- All bytes received over a connection, in order. -/
def totalBytes (evs : List ClientEvent) : List Nat :=
  (evs.map evBytes).flatten

theorem notifyEnd_no_backend (e : Engine) :
    countEff isBackendConnect (notifyEnd e).2 = 0 := by
  unfold notifyEnd
  split_ifs
  · rfl
  · rcases hd : utf8Decode e.notify_ticket with _ | cs <;>
      simp [hd, countEff, isBackendConnect]

theorem notifyEnd_closed (e : Engine) :
    (notifyEnd e).1.closed = e.closed := by
  unfold notifyEnd
  split_ifs <;> rfl

theorem notifyEnd_proxying (e : Engine) :
    (notifyEnd e).1.proxying = e.proxying := by
  unfold notifyEnd
  split_ifs <;> rfl

theorem close_connection_no_backend (e : Engine) :
    countEff isBackendConnect (close_connection e).2 = 0 := by
  unfold close_connection
  split_ifs
  · rw [countEff_append]
    rw [notifyEnd_no_backend]
    rfl
  · rfl

theorem close_connection_closed (e : Engine) :
    (close_connection e).1.closed = true := by
  unfold close_connection
  split_ifs
  · rw [notifyEnd_closed]
  · rfl

theorem close_connection_proxying (e : Engine) :
    (close_connection e).1.proxying = e.proxying := by
  unfold close_connection
  split_ifs
  · rw [notifyEnd_proxying]
  · rfl

theorem countEff_map_wr (p : Eff → Bool) (hp : ∀ d, p (Eff.wr d) = false)
    (data : List (List Nat)) (f : List Nat → List Nat) :
    countEff p (data.map (fun v => Eff.wr (f v))) = 0 := by
  induction data with
  | nil => rfl
  | cons v data ih =>
    simp only [List.map_cons, countEff, List.filter_cons, hp]
    simpa [countEff] using ih

theorem process_stats_no_backend (env : Env) (e : Engine) (b : Bool) :
    countEff isBackendConnect (process_stats env e b).2 = 0 := by
  unfold process_stats
  dsimp only
  split_ifs
  · rfl
  · rw [countEff_append]
    rw [countEff_append]
    rw [countEff_append]
    rw [close_connection_no_backend]
    rw [countEff_map_wr isBackendConnect (fun d => rfl)]
    rfl
  · rw [countEff_append]
    rw [close_connection_no_backend]
    rfl
  · rw [countEff_append]
    rw [close_connection_no_backend]
    rfl

theorem process_stats_proxying (env : Env) (e : Engine) (b : Bool) :
    (process_stats env e b).1.proxying = e.proxying := by
  unfold process_stats
  dsimp only
  split_ifs
  · rfl
  · rw [close_connection_proxying]
  · rw [close_connection_proxying]
  · rw [close_connection_proxying]

theorem process_stats_state (env : Env) (e : Engine) (b : Bool) :
    (process_stats env e b).1 = e ∨
      (process_stats env e b).1.closed = true := by
  unfold process_stats
  dsimp only
  split_ifs
  · left
    rfl
  · right
    exact close_connection_closed _
  · right
    exact close_connection_closed _
  · right
    exact close_connection_closed _

theorem take4_of_append {p : List Nat} (q : List Nat) (h : 4 ≤ p.length) :
    (p ++ q).take 4 = p.take 4 := by
  rcases p with _ | ⟨a, p⟩
  · simp only [List.length_nil] at h
    omega
  rcases p with _ | ⟨b, p⟩
  · simp only [List.length_cons, List.length_nil] at h
    omega
  rcases p with _ | ⟨c, p⟩
  · simp only [List.length_cons, List.length_nil] at h
    omega
  rcases p with _ | ⟨d, p⟩
  · simp only [List.length_cons, List.length_nil] at h
    omega
  rfl

theorem do_command_non_open (env : Env) (e : Engine) (data : List Nat)
    (hop : (e.cmd ++ data).take COMMAND_LENGTH ≠ COMMAND_OPEN) :
    countEff isBackendConnect (do_command env e data).2 = 0 ∧
    (do_command env e data).1.proxying = e.proxying ∧
    ((do_command env e data).1.closed = true ∨
      ((do_command env e data).1.cmd = e.cmd ++ data ∧
        (do_command env e data).1.closed = e.closed)) := by
  unfold do_command
  dsimp only
  rw [if_neg hop]
  split_ifs with h1 h2 h3 h4
  · refine ⟨?_, ?_, Or.inl (close_connection_closed _)⟩
    · rw [countEff_append, close_connection_no_backend]
      rfl
    · rw [close_connection_proxying]
  · refine ⟨?_, ?_, ?_⟩
    · simp only [countEff, List.filter_cons]
      simpa [countEff, isBackendConnect] using
        process_stats_no_backend env { e with cmd := e.cmd ++ data } true
    · rw [process_stats_proxying]
    · rcases process_stats_state env { e with cmd := e.cmd ++ data } true with
        hst | hst
      · right
        rw [hst]
        exact ⟨rfl, rfl⟩
      · left
        exact hst
  · refine ⟨?_, ?_, ?_⟩
    · simp only [countEff, List.filter_cons]
      simpa [countEff, isBackendConnect] using
        process_stats_no_backend env { e with cmd := e.cmd ++ data } false
    · rw [process_stats_proxying]
    · rcases process_stats_state env { e with cmd := e.cmd ++ data } false with
        hst | hst
      · right
        rw [hst]
        exact ⟨rfl, rfl⟩
      · left
        exact hst
  · refine ⟨?_, ?_, Or.inl (close_connection_closed _)⟩
    · rw [countEff_append, close_connection_no_backend]
      rfl
    · rw [close_connection_proxying]
  · exact ⟨rfl, rfl, Or.inr ⟨rfl, rfl⟩⟩

theorem run_no_backend :
    ∀ (evs : List ClientEvent) (env : Env) (e : Engine) (acc : List Nat),
      e.proxying = false →
      (e.closed = true ∨ e.cmd = acc) →
      (acc ++ totalBytes evs).take COMMAND_LENGTH ≠ COMMAND_OPEN →
      countEff isBackendConnect (run env e evs).2 = 0 := by
  intro evs
  induction evs with
  | nil =>
    intro env e acc _ _ _
    rfl
  | cons ev evs ih =>
    intro env e acc hpx hcl hop
    rcases ev with data | _
    · have hopsplit :
          ((acc ++ data) ++ totalBytes evs).take COMMAND_LENGTH ≠
            COMMAND_OPEN := by
        simpa [totalBytes, evBytes, List.append_assoc] using hop
      by_cases hc : e.closed = true
      · have hstep : step env e (ClientEvent.dataRecv data) = (e, []) := by
          unfold step
          dsimp only
          rw [if_pos hc]
        simp only [run, hstep, List.nil_append]
        exact ih env e (acc ++ data) hpx (Or.inl hc) hopsplit
      · have hcmd : e.cmd = acc := by
          rcases hcl with hcl | hcmd
          · exact absurd hcl hc
          · exact hcmd
        have hstep : step env e (ClientEvent.dataRecv data) =
            do_command env e data := by
          unfold step
          dsimp only
          rw [if_neg hc, if_neg (by simp [hpx])]
        have hop2 : (e.cmd ++ data).take COMMAND_LENGTH ≠ COMMAND_OPEN := by
          rw [hcmd]
          intro hcontra
          apply hopsplit
          by_cases h4 : 4 ≤ (acc ++ data).length
          · rw [show COMMAND_LENGTH = 4 from rfl] at hcontra ⊢
            rw [take4_of_append (totalBytes evs) h4]
            exact hcontra
          · exfalso
            have hlen := congrArg List.length hcontra
            simp only [List.length_take, COMMAND_LENGTH, COMMAND_OPEN,
              List.length_cons, List.length_nil] at hlen
            omega
        obtain ⟨hcount, hpx2, hst2⟩ := do_command_non_open env e data hop2
        simp only [run, hstep]
        rw [countEff_append, hcount]
        rw [Nat.zero_add]
        rcases hst2 with hst2 | ⟨hst2a, hst2b⟩
        · exact ih env _ (acc ++ data) (by rw [hpx2, hpx]) (Or.inl hst2)
            hopsplit
        · refine ih env _ (acc ++ data) (by rw [hpx2, hpx]) ?_ hopsplit
          right
          rw [hst2a, hcmd]
    · have hopsplit :
          (acc ++ totalBytes evs).take COMMAND_LENGTH ≠ COMMAND_OPEN := by
        simpa [totalBytes, evBytes] using hop
      have hstep : step env e ClientEvent.connLost =
          notifyEnd { e with closed := true } := by
        unfold step
        rfl
      simp only [run, hstep]
      rw [countEff_append, notifyEnd_no_backend, Nat.zero_add]
      refine ih env _ acc ?_ ?_ hopsplit
      · rw [notifyEnd_proxying]
        exact hpx
      · left
        rw [notifyEnd_closed]

theorem countEff_cons (p : Eff → Bool) (a : Eff) (l : List Eff) :
    countEff p (a :: l) = (if p a then 1 else 0) + countEff p l := by
  simp only [countEff, List.filter_cons]
  split_ifs <;> simp [Nat.add_comm]

theorem notifyEnd_no_connectlog (e : Engine) :
    countEff isLogConnect (notifyEnd e).2 = 0 := by
  unfold notifyEnd
  split_ifs
  · rfl
  · rcases hd : utf8Decode e.notify_ticket with _ | cs <;>
      simp [hd, countEff, isLogConnect]

theorem close_connection_no_connectlog (e : Engine) :
    countEff isLogConnect (close_connection e).2 = 0 := by
  unfold close_connection
  split_ifs
  · rw [countEff_append, notifyEnd_no_connectlog]
    rfl
  · rfl

theorem open_other_side_no_connectlog (env : Env) (e : Engine)
    (t : List Nat) :
    countEff isLogConnect (open_other_side env e t).2 = 0 := by
  have heffs :
      countEff isLogConnect (getTicketFromUDS t env.sourceIp env.oracle).1 = 0 := by
    rcases getTicketFromUDS_effs t env.sourceIp env.oracle with he | he <;>
      rw [he] <;> rfl
  unfold open_other_side
  rcases hg : (getTicketFromUDS t env.sourceIp env.oracle).2 with msg | r
  · dsimp only
    rw [countEff_append, heffs]
    rfl
  · dsimp only
    split_ifs
    · rw [countEff_append, heffs]
      rfl
    · rw [countEff_append, countEff_append, heffs,
        close_connection_no_connectlog]
      rfl

/-! ## Claim C4 (corrected) -/

/-- Counterexample to C4 as stated: when the OPEN command and its
48-byte ticket arrive in two separate reads, the CONNECT FROM log
line is emitted twice, not exactly once, because do_command logs it
on every read processed while the engine is still in command phase
with at least 4 buffered bytes. -/
theorem C4_counterexample :
    countEff isLogConnect
      (run cEnv initEngine
        [ClientEvent.dataRecv COMMAND_OPEN,
         ClientEvent.dataRecv (List.replicate 48 65)]).2 = 2 := by decide

/-- C4 amended: when the whole command arrives in a single read, a
TEST connection emits exactly one CONNECT FROM line and exactly one
terminal (TERMINATED or ERROR) line; but one CONNECT FROM line is
emitted per read processed in command phase once at least 4 bytes are
buffered, so an OPEN whose ticket arrives in a second read emits two
CONNECT FROM lines. -/
theorem C4_amended :
    (∀ env : Env,
      countEff isLogConnect
        (run env initEngine [ClientEvent.dataRecv COMMAND_TEST]).2 = 1 ∧
      countEff isTerminalLog
        (run env initEngine [ClientEvent.dataRecv COMMAND_TEST]).2 = 1) ∧
    (∀ (env : Env) (t : List Nat), t.length = TICKET_LENGTH →
      countEff isLogConnect
        (run env initEngine
          [ClientEvent.dataRecv COMMAND_OPEN,
           ClientEvent.dataRecv t]).2 = 2) := by
  constructor
  · intro env
    have hrun : (run env initEngine [ClientEvent.dataRecv COMMAND_TEST]).2 =
        [Eff.logConnect, Eff.logCommand COMMAND_TEST, Eff.wr bOK,
         Eff.closeT, Eff.logTerminated] := by
      simp only [run, step, do_command, initEngine, List.nil_append]
      simp [COMMAND_TEST, COMMAND_OPEN, COMMAND_LENGTH, close_connection]
    rw [hrun]
    constructor <;> rfl
  · intro env t ht
    have h48 : t.length = 48 := ht
    have h1 : step env initEngine (ClientEvent.dataRecv COMMAND_OPEN) =
        ({ initEngine with cmd := COMMAND_OPEN }, [Eff.logConnect]) := by
      simp [step, do_command, process_open, initEngine, COMMAND_OPEN,
        COMMAND_LENGTH, TICKET_LENGTH]
    have htake : List.take COMMAND_LENGTH (COMMAND_OPEN ++ t) = COMMAND_OPEN := rfl
    have hdrop : List.drop COMMAND_LENGTH (COMMAND_OPEN ++ t) = t := rfl
    have h2 : step env { initEngine with cmd := COMMAND_OPEN }
        (ClientEvent.dataRecv t) =
        ((open_other_side env
            { initEngine with cmd := [], proxying := true } t).1,
          Eff.logConnect :: Eff.pauseR ::
            (open_other_side env
              { initEngine with cmd := [], proxying := true } t).2) := by
      simp only [step, do_command, process_open, initEngine]
      rw [htake, hdrop]
      have h4x : COMMAND_LENGTH ≤ COMMAND_OPEN.length + t.length := by
        simp [COMMAND_OPEN, COMMAND_LENGTH]
      have hnlx : ¬ (COMMAND_OPEN.length + t.length <
          TICKET_LENGTH + COMMAND_LENGTH) := by
        simp only [COMMAND_OPEN, TICKET_LENGTH, COMMAND_LENGTH,
          List.length_cons, List.length_nil]
        omega
      simp [h4x, hnlx]
    simp only [run, h1, h2]
    rw [countEff_append, countEff_append]
    rw [countEff_cons, countEff_cons, countEff_cons]
    rw [open_other_side_no_connectlog]
    simp [isLogConnect, countEff]

/-- Witness for the amended C4 at concrete inputs. -/
theorem C4_amended_witness :
    (countEff isLogConnect
      (run cEnv initEngine [ClientEvent.dataRecv COMMAND_TEST]).2 = 1 ∧
    countEff isTerminalLog
      (run cEnv initEngine [ClientEvent.dataRecv COMMAND_TEST]).2 = 1) ∧
    countEff isLogConnect
      (run cEnv initEngine
        [ClientEvent.dataRecv COMMAND_OPEN,
         ClientEvent.dataRecv (List.replicate 48 66)]).2 = 2 :=
  ⟨C4_amended.1 cEnv, C4_amended.2 cEnv (List.replicate 48 66) (by decide)⟩

/-! ## Claim C6 (corrected) -/

/-- Counterexample to C6 as stated: the reply to TEST is exactly the
two bytes OK with no trailing newline (the claim asserts OK followed
by a newline). -/
theorem C6_counterexample :
    writesOf (run cEnv initEngine [ClientEvent.dataRecv COMMAND_TEST]).2 =
      [79, 75] ∧ ([79, 75] : List Nat) ≠ [79, 75, 10] := by decide

/-- C6 amended: for every TEST command the relay replies exactly the
two bytes OK (no newline) and closes the connection; and for every
connection whose received bytes do not begin with the OPEN command
(TEST, STAT, INFO or anything else, however the bytes are split
across reads) no backend socket connection is ever attempted. -/
theorem C6_amended :
    (∀ env : Env,
      writesOf (run env initEngine [ClientEvent.dataRecv COMMAND_TEST]).2 =
        bOK ∧
      Eff.closeT ∈ (run env initEngine [ClientEvent.dataRecv COMMAND_TEST]).2) ∧
    (∀ (env : Env) (evs : List ClientEvent),
      (totalBytes evs).take COMMAND_LENGTH ≠ COMMAND_OPEN →
      countEff isBackendConnect (run env initEngine evs).2 = 0) := by
  constructor
  · intro env
    have hrun : (run env initEngine [ClientEvent.dataRecv COMMAND_TEST]).2 =
        [Eff.logConnect, Eff.logCommand COMMAND_TEST, Eff.wr bOK,
         Eff.closeT, Eff.logTerminated] := by
      simp only [run, step, do_command, initEngine, List.nil_append]
      simp [COMMAND_TEST, COMMAND_OPEN, COMMAND_LENGTH, close_connection]
    rw [hrun]
    constructor
    · rfl
    · simp
  · intro env evs hne
    exact run_no_backend evs env initEngine [] rfl (Or.inr rfl)
      (by simpa using hne)

/-- Witness for the amended C6: the TEST reply is OK, and a STAT
connection attempts no backend connect. -/
theorem C6_amended_witness :
    writesOf (run cEnv initEngine [ClientEvent.dataRecv COMMAND_TEST]).2 =
      bOK ∧
    countEff isBackendConnect
      (run cEnv initEngine [ClientEvent.dataRecv COMMAND_STAT]).2 = 0 :=
  ⟨(C6_amended.1 cEnv).1,
    C6_amended.2 cEnv [ClientEvent.dataRecv COMMAND_STAT] (by decide)⟩

/-! ## Claims C7 and C9: the stats dump and the password check -/

theorem writesOf_map_wr (data : List (List Nat)) (f : List Nat → List Nat) :
    writesOf (data.map (fun v => Eff.wr (f v))) = (data.map f).flatten := by
  induction data with
  | nil => rfl
  | cons v data ih =>
    simp only [List.map_cons, writesOf, List.flatten_cons] at ih ⊢
    rw [ih]

theorem append_newline_ne_bFORBIDDEN (v : List Nat) :
    v ++ [10] ≠ bFORBIDDEN := by
  intro h
  have h2 := congrArg List.getLast? h
  rw [List.getLast?_concat] at h2
  have h3 : List.getLast? bFORBIDDEN = some 78 := rfl
  rw [h3] at h2
  simp at h2

/-- Evaluation of a complete STAT/INFO exchange from an allowed
source: the whole effect list, as a function of whether the decoded
password matches the secret. -/
theorem run_stats_allowed (env : Env) (c pw : List Nat)
    (hc : c = COMMAND_STAT ∨ c = COMMAND_INFO)
    (hpw : pw.length = PASSWORD_LENGTH)
    (hsrc : env.sourceIp ∈ env.cfg.allow) :
    (run env initEngine [ClientEvent.dataRecv (c ++ pw)]).2 =
      if utf8DecodeIgnore pw = env.cfg.secret then
        [Eff.logConnect, Eff.logCommand c, Eff.cmpPassword pw] ++
          env.statsData.map (fun v => Eff.wr (v ++ [10])) ++
          [Eff.logTerminated, Eff.closeT, Eff.logTerminated]
      else
        [Eff.logConnect, Eff.logCommand c, Eff.cmpPassword pw,
         Eff.wr bFORBIDDEN, Eff.closeT, Eff.logTerminated] := by
  have hc4 : c.length = 4 := by
    rcases hc with rfl | rfl <;> rfl
  have htakeC : (c ++ pw).take COMMAND_LENGTH = c := by
    rcases hc with rfl | rfl <;> rfl
  have htake4 : (c ++ pw).take 4 = c := by
    rcases hc with rfl | rfl <;> rfl
  have hdrop : (c ++ pw).drop COMMAND_LENGTH = pw := by
    rcases hc with rfl | rfl <;> rfl
  have hlen : ¬ ((c ++ pw).length < PASSWORD_LENGTH + COMMAND_LENGTH) := by
    simp only [List.length_append, PASSWORD_LENGTH, COMMAND_LENGTH, hc4, hpw]
    omega
  rw [run_stats_complete env c pw hc hpw]
  simp only [process_stats, initEngine]
  rw [if_neg hlen, if_pos hsrc]
  rw [htakeC, htake4, hdrop]
  by_cases hpass : utf8DecodeIgnore pw = env.cfg.secret
  · rw [if_pos hpass, if_pos hpass]
    simp [close_connection]
  · rw [if_neg hpass, if_neg hpass]
    simp [close_connection]

/-- Counterexample environment for the stats claims: allowed source,
secret of forty letter A characters, one stats record. -/
def cEnv7 : Env :=
  { cfg := { allow := ["127.0.0.1"], secret := List.replicate 40 65 },
    sourceIp := "127.0.0.1", oracle := Except.error "unused",
    backendOk := false, statsData := [[97]] }

/-- Counterexample to C7 as stated: a successful STAT dump of the
single record a writes exactly the bytes a newline and closes; the
output is not terminated by a blank line (which would add a second
newline). -/
theorem C7_counterexample :
    writesOf (run cEnv7 initEngine
      [ClientEvent.dataRecv (COMMAND_STAT ++ List.replicate 40 65)]).2 =
      [97, 10] ∧ ([97, 10] : List Nat) ≠ [97, 10, 10] := by decide

/-- C7 amended: for every STAT or INFO command with correct password
from an allowed source, the relay writes the stats dump as plain
text, one record per line each terminated by a newline, and then
closes the socket with no terminating blank line: the bytes written
are exactly the concatenation of the records with one newline each. -/
theorem C7_stats_dump_no_blank_line (env : Env) (c pw : List Nat)
    (hc : c = COMMAND_STAT ∨ c = COMMAND_INFO)
    (hpw : pw.length = PASSWORD_LENGTH)
    (hsrc : env.sourceIp ∈ env.cfg.allow)
    (hpass : utf8DecodeIgnore pw = env.cfg.secret) :
    (run env initEngine [ClientEvent.dataRecv (c ++ pw)]).2 =
      [Eff.logConnect, Eff.logCommand c, Eff.cmpPassword pw] ++
        env.statsData.map (fun v => Eff.wr (v ++ [10])) ++
        [Eff.logTerminated, Eff.closeT, Eff.logTerminated] ∧
    writesOf (run env initEngine [ClientEvent.dataRecv (c ++ pw)]).2 =
      (env.statsData.map (fun v => v ++ [10])).flatten := by
  have hmain := run_stats_allowed env c pw hc hpw hsrc
  rw [if_pos hpass] at hmain
  refine ⟨hmain, ?_⟩
  rw [hmain]
  rw [writesOf_append, writesOf_append]
  rw [writesOf_map_wr]
  simp [writesOf]

/-- Witness for the amended C7 at a concrete input. -/
theorem C7_stats_dump_no_blank_line_witness :
    (run cEnv7 initEngine
      [ClientEvent.dataRecv (COMMAND_STAT ++ List.replicate 40 65)]).2 =
      [Eff.logConnect, Eff.logCommand COMMAND_STAT,
       Eff.cmpPassword (List.replicate 40 65)] ++
        cEnv7.statsData.map (fun v => Eff.wr (v ++ [10])) ++
        [Eff.logTerminated, Eff.closeT, Eff.logTerminated] ∧
    writesOf (run cEnv7 initEngine
      [ClientEvent.dataRecv (COMMAND_STAT ++ List.replicate 40 65)]).2 =
      (cEnv7.statsData.map (fun v => v ++ [10])).flatten :=
  C7_stats_dump_no_blank_line cEnv7 COMMAND_STAT (List.replicate 40 65)
    (Or.inl rfl) (by decide) (by decide) (by decide)

/-- Environment exhibiting the padding collision of C9: the secret is
only 39 characters long (39 letter A characters). -/
def cEnv9 : Env :=
  { cfg := { allow := ["10.0.0.8"], secret := List.replicate 39 65 },
    sourceIp := "10.0.0.8", oracle := Except.error "unused",
    backendOk := false, statsData := [[115]] }

/-- A 40-byte password padding the 39-character secret with the
undecodable byte 255. -/
def pwInvalidA : List Nat := List.replicate 39 65 ++ [255]

/-- A distinct 40-byte password padding the same secret with the
undecodable byte 254. -/
def pwInvalidB : List Nat := List.replicate 39 65 ++ [254]

/-- C9: the STAT/INFO password check accepts the supplied 40 bytes
(no FORBIDDEN reply) exactly when their UTF-8 decoding with
undecodable bytes silently dropped equals the configured secret;
consequently the two distinct 40-byte inputs that differ only in
their invalid trailing byte both authenticate against a 39-character
secret. -/
theorem C9_password_ignore_decode :
    (∀ (env : Env) (pw : List Nat), pw.length = PASSWORD_LENGTH →
      env.sourceIp ∈ env.cfg.allow →
      (Eff.wr bFORBIDDEN ∉
          (run env initEngine
            [ClientEvent.dataRecv (COMMAND_STAT ++ pw)]).2 ↔
        utf8DecodeIgnore pw = env.cfg.secret)) ∧
    Eff.wr bFORBIDDEN ∉
      (run cEnv9 initEngine
        [ClientEvent.dataRecv (COMMAND_STAT ++ pwInvalidA)]).2 ∧
    Eff.wr bFORBIDDEN ∉
      (run cEnv9 initEngine
        [ClientEvent.dataRecv (COMMAND_STAT ++ pwInvalidB)]).2 ∧
    pwInvalidA ≠ pwInvalidB ∧
    pwInvalidA.length = PASSWORD_LENGTH ∧
    pwInvalidB.length = PASSWORD_LENGTH ∧
    cEnv9.cfg.secret.length = 39 := by
  refine ⟨?_, by decide, by decide, by decide, by decide, by decide, by decide⟩
  intro env pw hpw hsrc
  have hmain := run_stats_allowed env COMMAND_STAT pw (Or.inl rfl) hpw hsrc
  by_cases hpass : utf8DecodeIgnore pw = env.cfg.secret
  · rw [if_pos hpass] at hmain
    rw [hmain]
    constructor
    · intro _
      exact hpass
    · intro _
      intro hmem
      simp at hmem
      obtain ⟨v, hv, h2⟩ := hmem
      exact append_newline_ne_bFORBIDDEN v h2
  · rw [if_neg hpass] at hmain
    rw [hmain]
    constructor
    · intro hnot
      exfalso
      apply hnot
      simp
    · intro hr
      exact absurd hr hpass

/-- Witness for the universally quantified part of C9: at the
concrete environment with the 40-character secret, the all-A password
authenticates if and only if its decoding equals the secret. -/
theorem C9_password_ignore_decode_witness :
    Eff.wr bFORBIDDEN ∉
        (run cEnv7 initEngine
          [ClientEvent.dataRecv
            (COMMAND_STAT ++ List.replicate 40 65)]).2 ↔
      utf8DecodeIgnore (List.replicate 40 65) = cEnv7.cfg.secret :=
  C9_password_ignore_decode.1 cEnv7 (List.replicate 40 65)
    (by decide) (by decide)
